import Mathlib

/-!
Verification development for the sec-filing-analyzer research scripts.

The repository is a set of standalone Python analysis scripts.  This file
embeds the recurring computational cores as Lean definitions and proves (or
refutes) the specification's claims about them:

* the batch 7-day return calculator (`scripts/collect-full-dataset.py`,
  `calc_returns_batch`) and its variants
  (`scripts/collect-historical-data.py`, `scripts/test-collection.py`);
* the direction-accuracy computations
  (`scripts/comprehensive-backtest.py`, `scripts/ml_analysis.py`,
  `scripts/ml_analysis_30d.py`);
* the earnings-surprise classification and prior-period lookup
  (`scripts/extract-financial-metrics.py`);
* the duplicate-row handling
  (`scripts/python/fix-duplicates-and-retrain.py`).

Modelling conventions: calendar/trading dates are `Int` day ordinals
(comparison on them mirrors comparison on `datetime` values); close prices
and returns are `ℚ` (the Python floats never round inside these
computations, so the rational value tracks the computed expression
exactly); a Python `None` is `Option.none`; a raised-and-caught exception
is modelled by the explicit alternative the `except` branch returns, and an
uncaught exception by `Except.error`.
-/

namespace SecFilingAnalyzer

/-- A row of the fetched price history: (trading date, close price).
Mirrors one row of the `yfinance` history frame restricted to `Close`. -/
abbrev PriceRow := Int × ℚ

/-- One ticker's price history, as returned by `stock.history`: rows in
ascending date order. -/
abbrev PriceSeries := List PriceRow

/-- A `PriceSeries` is well-formed when its dates are strictly increasing
(the spec's invariant for fetched daily histories). -/
def DateSorted (hist : PriceSeries) : Prop :=
  hist.Pairwise (fun a b => a.1 < b.1)

instance (hist : PriceSeries) : Decidable (DateSorted hist) := by
  unfold DateSorted
  exact List.instDecidablePairwise hist

/-- The per-filing-date body of `calc_returns_batch` in
`scripts/collect-full-dataset.py` (lines 117-130):

    window = hist[hist.index >= dt]
    if len(window) < 2: return None
    start_price = window['Close'].iloc[0]
    end_idx = min(days, len(window) - 1)
    end_price = window['Close'].iloc[end_idx]
    return ((end_price - start_price) / start_price) * 100
-/
def calc_return_one (days : Nat) (hist : PriceSeries) (dt : Int) : Option ℚ :=
  let window := hist.filter (fun r => decide (dt ≤ r.1))
  if window.length < 2 then
    none
  else
    let start_price := (window.getD 0 (0, 0)).2
    let end_idx := min days (window.length - 1)
    let end_price := (window.getD end_idx (0, 0)).2
    some ((end_price - start_price) / start_price * 100)

/-- `calc_returns_batch` of `scripts/collect-full-dataset.py` (lines
99-135).  `fetchResult = none` models the `try` block raising (network
failure, malformed date, ...), in which case the `except` branch returns
the empty dict `{}`; `fetchResult = some hist` models a successful
`stock.history` call returning `hist`, and the `if hist.empty: return {}`
guard.  The returned association list models the Python dict keyed by
filing date. -/
def calc_returns_batch (filing_dates : List Int)
    (fetchResult : Option PriceSeries) (days : Nat) :
    List (Int × Option ℚ) :=
  if filing_dates.isEmpty then
    []
  else
    match fetchResult with
    | none => []
    | some hist =>
      if hist.isEmpty then
        []
      else
        filing_dates.map (fun d => (d, calc_return_one days hist d))

/-- Written from the spec's words (refinement target for C1): the index of
the first row whose date is ≥ the filing date ("anchor"), if any. -/
def anchorIdx (dt : Int) : PriceSeries → Option Nat
  | [] => none
  | r :: t => if dt ≤ r.1 then some 0 else (anchorIdx dt t).map (· + 1)

/-- Written from the spec's words (refinement target for C1): the Return
Calculator stated via an anchor index, §4.2 of the spec —
"find the first index i such that PriceSeries[i].date ≥ filingDate; if no
such index exists, or fewer than 2 rows remain from i onward, return null;
endIndex = min(i + horizonDays, lastIndex);
actualReturnPct = (close[endIndex] − close[i]) / close[i] × 100". -/
def specAnchorReturn (days : Nat) (hist : PriceSeries) (dt : Int) : Option ℚ :=
  match anchorIdx dt hist with
  | none => none
  | some i =>
    if hist.length - i < 2 then
      none
    else
      let endIdx := min (i + days) (hist.length - 1)
      let ci := (hist.getD i (0, 0)).2
      let ce := (hist.getD endIdx (0, 0)).2
      some ((ce - ci) / ci * 100)

/-- The synthetic 8-trading-day price series of the spec's §8 worked
examples: closes [100, 105, 110, 95, 90, 100, 107, 103] on days 0..7. -/
def exampleSeries : PriceSeries :=
  [(0, 100), (1, 105), (2, 110), (3, 95), (4, 90), (5, 100), (6, 107), (7, 103)]

/-- `returns.get(filing["filingDate"])` on the per-ticker dict
(`scripts/collect-full-dataset.py` line 161): a missing key and a stored
`None` both produce `None`. -/
def dictGet (m : List (Int × Option ℚ)) (d : Int) : Option ℚ :=
  match m.lookup d with
  | none => none
  | some v => v

/-- The per-ticker body of the main loop of
`scripts/collect-full-dataset.py` (lines 157-161): compute the batch
returns and attach `actual7dReturn` to each filing (filings are keyed here
by their filing date). -/
def processTicker (filing_dates : List Int) (fetchResult : Option PriceSeries)
    (days : Nat) : List (Int × Option ℚ) :=
  let returns := calc_returns_batch filing_dates fetchResult days
  filing_dates.map (fun d => (d, dictGet returns d))

/-- The whole collection loop over tickers (`all_filings.extend(...)`,
lines 146-165): one entry per ticker of (its filing dates, the outcome of
its price fetch). -/
def processAllTickers (tickers : List (List Int × Option PriceSeries))
    (days : Nat) : List (Int × Option ℚ) :=
  (tickers.map (fun tk => processTicker tk.1 tk.2 days)).flatten

/-- The per-filing-date body of `calc_returns_batch` in
`scripts/test-collection.py` (lines 66-75): the window is bounded on both
sides (`hist.index >= dt` and `hist.index <= dt + 14`), the horizon is the
hard-coded 7, and a short window stores `None` under the date. -/
def tc_calc_return_one (hist : PriceSeries) (dt : Int) : Option ℚ :=
  let filing_hist := hist.filter (fun r => decide (dt ≤ r.1 ∧ r.1 ≤ dt + 14))
  if 2 ≤ filing_hist.length then
    let start_price := (filing_hist.getD 0 (0, 0)).2
    let end_price := (filing_hist.getD (min 7 (filing_hist.length - 1)) (0, 0)).2
    some ((end_price - start_price) / start_price * 100)
  else
    none

/-- `calc_returns_batch` of `scripts/test-collection.py` (lines 56-81).
Unlike the `collect-full-dataset.py` version its `except` branch returns
`{date: None for date in filing_dates}`, and there is no `hist.empty`
guard. -/
def tc_calc_returns_batch (filing_dates : List Int)
    (fetchResult : Option PriceSeries) : List (Int × Option ℚ) :=
  if filing_dates.isEmpty then
    []
  else
    match fetchResult with
    | none => filing_dates.map (fun d => (d, none))
    | some hist => filing_dates.map (fun d => (d, tc_calc_return_one hist d))

/-- The fetched date range of `calc_returns_batch` in
`scripts/collect-full-dataset.py` (lines 106-108):
`min(dates)` to `max(dates) + timedelta(days=days+7)`. -/
def fetch_range_full (filing_dates : List Int) (days : Int) : Option (Int × Int) :=
  match filing_dates.min?, filing_dates.max? with
  | some mn, some mx => some (mn, mx + (days + 7))
  | _, _ => none

/-- The fetched date range of `calculate_stock_returns_batch` in
`scripts/collect-historical-data.py` (lines 173-175):
`min(filing_dates)` to `max(filing_dates) + timedelta(days=days + 5)`. -/
def fetch_range_hist (filing_dates : List Int) (days : Int) : Option (Int × Int) :=
  match filing_dates.min?, filing_dates.max? with
  | some mn, some mx => some (mn, mx + (days + 5))
  | _, _ => none

/-- `np.sign` restricted to the exact rational values flowing through the
scripts: +1 for positive, -1 for negative, 0 for zero. -/
def npSign (x : ℚ) : Int :=
  if 0 < x then 1 else if x < 0 then -1 else 0

/-- `correct_direction` of `scripts/comprehensive-backtest.py` (line 52):
`(predicted_return > 0) == (actual_return > 0)`.  When the actual return
is `None`, Python 3 raises `TypeError` on `None > 0`. -/
def cb_correct_direction (pred : ℚ) (actual : Option ℚ) : Except String Bool :=
  match actual with
  | none => Except.error "TypeError"
  | some a => Except.ok (decide ((0 < pred) ↔ (0 < a)))

/-- The overall-accuracy fold of `scripts/comprehensive-backtest.py`
(lines 37-58): build `correct_direction` for every pair, then
`correct = sum(...)`, `total = len(predictions)`.  No pair is excluded. -/
def cb_accuracy (pairs : List (ℚ × Option ℚ)) : Except String (Nat × Nat) := do
  let flags ← pairs.mapM (fun p => cb_correct_direction p.1 p.2)
  return (flags.count true, flags.length)

/-- `direction_accuracy` of `scripts/ml_analysis.py` (lines 69-72) and
`scripts/ml_analysis_30d.py` (lines 26-29):
`np.sum(np.sign(y_true) == np.sign(y_pred)) / len(y_true) * 100`. -/
def ml_direction_accuracy (y_true y_pred : List ℚ) : ℚ :=
  (((y_true.zip y_pred).countP (fun q => decide (npSign q.1 = npSign q.2))) : ℚ) /
    (y_true.length : ℚ) * 100

/-- The null-target drop of `prepare_features` in
`scripts/ml_analysis_30d.py` (line 33):
`df_clean = df[df[target_col].notna()]` — rows whose actual value is null
are removed before any accuracy computation sees them. -/
def ml30_prepare (pairs : List (ℚ × Option ℚ)) : List (ℚ × ℚ) :=
  pairs.filterMap (fun q => q.2.map (fun a => (q.1, a)))

/-- A concrete batch of 10 (prediction, actual) pairs of which 3 have a
null actual return. -/
def tenPairs : List (ℚ × Option ℚ) :=
  [(1, some 2), (1, none), (-1, some (-3)), (1, some 1), (-1, none),
   (1, some 5), (1, some (-2)), (-1, none), (1, some 4), (-1, some (-1))]

/-- The surprise magnitude of `scripts/extract-financial-metrics.py`
(lines 212, 232): `((current - prior) / abs(prior)) * 100`. -/
def surpriseMagnitude (current prior : ℚ) : ℚ :=
  (current - prior) / |prior| * 100

/-- The classification block of `scripts/extract-financial-metrics.py`
(lines 214-222 and 234-242): `> 5` → beat, `< -5` → miss, else inline. -/
def classifySurprise (growth : ℚ) : String :=
  if 5 < growth then "beat" else if growth < -5 then "miss" else "inline"

/-- The guarded surprise computation (lines 211-222): nothing is produced
when the prior value is zero. -/
def surpriseOf (current prior : ℚ) : Option (String × ℚ) :=
  if prior ≠ 0 then
    some (classifySurprise (surpriseMagnitude current prior),
          surpriseMagnitude current prior)
  else
    none

/-- One enriched filing as handled by the surprise pass of
`scripts/extract-financial-metrics.py`: the fields the prior-period lookup
and the eps-surprise computation read. -/
structure Filing where
  ticker : String
  filingType : String
  filingDate : Int
  eps : Option ℚ
  revenue : Option ℚ
deriving DecidableEq

/-- Python truthiness of an optional numeric metric
(`metrics.get('eps')` used as a condition): absent and `0.0` are falsy. -/
def truthy (x : Option ℚ) : Bool :=
  match x with
  | none => false
  | some v => decide (v ≠ 0)

/-- The descending scan of `scripts/extract-financial-metrics.py`
(lines 199-203): `for j in range(i-1, -1, -1): if filingType == '10-K':
prior_filing = ticker_filings[j]; break`.  The argument is the exclusive
upper bound of the scan (called with the filing's own index). -/
def findPriorAnnual (fs : List Filing) : Nat → Option Filing
  | 0 => none
  | j + 1 =>
    match fs[j]? with
    | some g => if g.filingType = "10-K" then some g else findPriorAnnual fs j
    | none => findPriorAnnual fs j

/-- The prior-period lookup of `scripts/extract-financial-metrics.py`
(lines 191-203) for the filing at index `i` of one ticker's date-sorted
filing list: a 10-Q compares to the filing 4 positions earlier (when one
exists), a 10-K to the most recent earlier 10-K. -/
def priorFiling (fs : List Filing) (i : Nat) : Option Filing :=
  match fs[i]? with
  | none => none
  | some f =>
    if f.filingType = "10-Q" then
      if 4 ≤ i then fs[i - 4]? else none
    else if f.filingType = "10-K" then
      findPriorAnnual fs i
    else
      none

/-- The eps-surprise fields attached to the filing at index `i`
(lines 185-222): `none` models the surprise keys staying absent on the
record (the `continue` guard, a missing prior, a falsy metric, or a zero
prior value). -/
def epsSurpriseAt (fs : List Filing) (i : Nat) : Option (String × ℚ) :=
  match fs[i]? with
  | none => none
  | some f =>
    if truthy f.eps && truthy f.revenue then
      match priorFiling fs i with
      | none => none
      | some prior =>
        if truthy f.eps && truthy prior.eps then
          match f.eps, prior.eps with
          | some c, some p => surpriseOf c p
          | _, _ => none
        else
          none
    else
      none

/-- Written from the spec's words (refinement target for C6): `g` is the
most recent annual filing strictly before index `i` in the ticker's
date-sorted list. -/
def IsMostRecentPriorAnnual (fs : List Filing) (i : Nat) (g : Filing) : Prop :=
  ∃ j, j < i ∧ fs[j]? = some g ∧ g.filingType = "10-K" ∧
    ∀ k, j < k → k < i → ∀ h, fs[k]? = some h → h.filingType ≠ "10-K"

/-- One row of the training CSV as read by
`scripts/python/fix-duplicates-and-retrain.py` (the columns its dedup pass
touches). -/
structure FilingRow where
  ticker : String
  filingDate : Int
  accessionIdentifier : String
deriving DecidableEq

/-- The `ticker_date` key column (line 38 of
`fix-duplicates-and-retrain.py`). -/
def rowKey (r : FilingRow) : String × Int :=
  (r.ticker, r.filingDate)

/-- `df.drop_duplicates('ticker_date', keep='first')` (line 57): scan in
order, keep a row iff its key has not been seen yet. -/
def dropDuplicatesKeepFirst (seen : List (String × Int)) :
    List FilingRow → List FilingRow
  | [] => []
  | r :: rs =>
    if rowKey r ∈ seen then
      dropDuplicatesKeepFirst seen rs
    else
      r :: dropDuplicatesKeepFirst (rowKey r :: seen) rs

/-- The dedup pass applied to the whole frame. -/
def dedupFilings (l : List FilingRow) : List FilingRow :=
  dropDuplicatesKeepFirst [] l

/-- A concrete date-sorted filing list for one ticker: an annual filing
followed by four quarterly ones. -/
def sampleFilings : List Filing :=
  [⟨"AAPL", "10-K", 0, some 1, some 10⟩,
   ⟨"AAPL", "10-Q", 1, some 2, some 20⟩,
   ⟨"AAPL", "10-Q", 2, some 3, some 30⟩,
   ⟨"AAPL", "10-Q", 3, some 4, some 40⟩,
   ⟨"AAPL", "10-Q", 4, some 5, some 50⟩]

/-- The anchor index, when it exists, is a valid index of the series. -/
theorem anchorIdx_lt_length (dt : Int) (hist : PriceSeries) (i : Nat)
    (h : anchorIdx dt hist = some i) : i < hist.length := by
  induction hist generalizing i with
  | nil => simp [anchorIdx] at h
  | cons a t ih =>
    by_cases ha : dt ≤ a.1
    · simp only [anchorIdx, if_pos ha] at h
      cases h
      simp
    · simp only [anchorIdx, if_neg ha, Option.map_eq_some'] at h
      obtain ⟨j, hj, rfl⟩ := h
      have := ih j hj
      simp only [List.length_cons]
      omega

/-- In a date-sorted history, every row after one that already reaches the
filing date also reaches it, so filtering keeps the whole tail. -/
theorem filter_ge_of_sorted_head (dt : Int) (a : PriceRow) (t : PriceSeries)
    (hs : DateSorted (a :: t)) (ha : dt ≤ a.1) :
    (a :: t).filter (fun r => decide (dt ≤ r.1)) = a :: t := by
  have htail : ∀ r ∈ t, dt ≤ r.1 := by
    intro r hr
    have := (List.pairwise_cons.mp hs).1 r hr
    omega
  have hfself : t.filter (fun r => decide (dt ≤ r.1)) = t :=
    List.filter_eq_self.mpr (fun r hr => by simpa using htail r hr)
  simp [List.filter_cons, ha, hfself]

/-- On a date-sorted series the filter-based window computation of
`calc_returns_batch` agrees with the spec's anchor-index formulation. -/
theorem calc_return_one_eq_specAnchorReturn (days : Nat) (hist : PriceSeries)
    (dt : Int) (hs : DateSorted hist) :
    calc_return_one days hist dt = specAnchorReturn days hist dt := by
  induction hist with
  | nil => rfl
  | cons a t ih =>
    by_cases ha : dt ≤ a.1
    · have hwin := filter_ge_of_sorted_head dt a t hs ha
      unfold calc_return_one specAnchorReturn
      simp only [anchorIdx, ha, if_pos, hwin]
      norm_num
    · have hwin : (a :: t).filter (fun r => decide (dt ≤ r.1)) =
          t.filter (fun r => decide (dt ≤ r.1)) := by
        simp [List.filter_cons, ha]
      have htsorted : DateSorted t := (List.pairwise_cons.mp hs).2
      have hcalc : calc_return_one days (a :: t) dt = calc_return_one days t dt := by
        unfold calc_return_one
        rw [hwin]
      rw [hcalc, ih htsorted]
      unfold specAnchorReturn
      simp only [anchorIdx, ha, if_neg, not_false_iff]
      cases hidx : anchorIdx dt t with
      | none => simp [hidx]
      | some i =>
        have hi : i < t.length := anchorIdx_lt_length dt t i hidx
        simp only [hidx, Option.map_some']
        have hlen : (a :: t).length - (i + 1) = t.length - i := by
          simp only [List.length_cons]
          omega
        rw [hlen]
        by_cases hrem : t.length - i < 2
        · simp [hrem]
        · have hmin : min (i + 1 + days) ((a :: t).length - 1) =
              min (i + days) (t.length - 1) + 1 := by
            simp only [List.length_cons, Nat.add_sub_cancel]
            omega
          rw [hmin]
          simp only [hrem, if_false]
          rfl

/-- Looking up any listed date in a map built over exactly those dates
succeeds. -/
theorem lookup_map_pair {β : Type} (f : Int → β) (l : List Int) (d : Int)
    (hd : d ∈ l) : (l.map (fun x => (x, f x))).lookup d = some (f d) := by
  induction l with
  | nil => cases hd
  | cons a t ih =>
    by_cases h : d = a
    · subst h
      simp [List.lookup]
    · have hdt : d ∈ t := by
        cases hd with
        | head => exact absurd rfl h
        | tail _ hm => exact hm
      have hba : (d == a) = false := beq_eq_false_iff_ne.mpr h
      simp [List.lookup, hba, ih hdt]

/-- C1: for every filing date and every date-sorted PriceSeries, the
filter-window computation of `calc_returns_batch` equals the spec's
anchor-index algorithm — anchor = first index with date ≥ filing date,
null when no anchor or fewer than 2 rows remain, otherwise
(close[min(i+horizonDays, lastIndex)] − close[i]) / close[i] × 100 — and
whenever at least 2 trading days exist at/after the filing date the result
is non-null (its value is the exact rational above, hence finite). -/
theorem claim_C1_return_calculator (days : Nat) (hist : PriceSeries) (dt : Int)
    (hs : DateSorted hist) :
    calc_return_one days hist dt = specAnchorReturn days hist dt ∧
    (2 ≤ (hist.filter (fun r => decide (dt ≤ r.1))).length →
      (calc_return_one days hist dt).isSome) := by
  refine ⟨calc_return_one_eq_specAnchorReturn days hist dt hs, fun h2 => ?_⟩
  unfold calc_return_one
  have hne : ¬ (hist.filter (fun r => decide (dt ≤ r.1))).length < 2 := by omega
  simp [hne]

/-- Witness for C1 at a concrete two-row sorted series. -/
theorem claim_C1_return_calculator_witness :
    calc_return_one 7 [(0, 10), (1, 12)] 0 = specAnchorReturn 7 [(0, 10), (1, 12)] 0 ∧
    (2 ≤ (([(0, 10), (1, 12)] : PriceSeries).filter
        (fun r => decide ((0 : Int) ≤ r.1))).length →
      (calc_return_one 7 [(0, 10), (1, 12)] 0).isSome) :=
  claim_C1_return_calculator 7 [(0, 10), (1, 12)] 0 (by decide)

/-- C4 counterexample: on the synthetic 8-day series anchored at day 3
with horizonDays = 7, the code's end index is the last index of the whole
window — close 103, not 107 — so the claimed value (107−95)/95×100 is not
produced; the produced value is (103−95)/95×100. -/
theorem claim_C4_counterexample :
    calc_return_one 7 exampleSeries 3 ≠ some ((107 - 95) / 95 * 100) ∧
    calc_return_one 7 exampleSeries 3 = some ((103 - 95) / 95 * 100) := by
  constructor
  · norm_num [calc_return_one, exampleSeries, List.filter]
  · norm_num [calc_return_one, exampleSeries, List.filter]

/-- C4 amended: anchored at day 0 the full-horizon return is +3.0%;
anchored at day 3 five rows remain (95, 90, 100, 107, 103), the end index
clamps to the last trading day with close 103, and the return is
(103−95)/95×100 = 160/19 ≈ +8.42%. -/
theorem claim_C4_shortened_horizon :
    calc_return_one 7 exampleSeries 0 = some 3 ∧
    calc_return_one 7 exampleSeries 3 = some ((103 - 95) / 95 * 100) ∧
    ((103 : ℚ) - 95) / 95 * 100 = 160 / 19 := by
  refine ⟨?_, ?_, by norm_num⟩
  · norm_num [calc_return_one, exampleSeries, List.filter]
  · norm_num [calc_return_one, exampleSeries, List.filter]

/-- C7: when the fetch raises or yields no rows, `calc_returns_batch`
returns the empty dict (total function — nothing propagates), every filing
of the ticker then picks up a null `actual7dReturn` via `returns.get`, and
the surrounding loop still processes the remaining tickers. -/
theorem claim_C7_fetch_failure (filing_dates : List Int)
    (fetchResult : Option PriceSeries) (days : Nat)
    (rest : List (List Int × Option PriceSeries))
    (hfail : fetchResult = none ∨ fetchResult = some []) :
    calc_returns_batch filing_dates fetchResult days = [] ∧
    (∀ d ∈ filing_dates,
      dictGet (calc_returns_batch filing_dates fetchResult days) d = none) ∧
    processAllTickers ((filing_dates, fetchResult) :: rest) days =
      filing_dates.map (fun d => (d, none)) ++ processAllTickers rest days := by
  have hempty : calc_returns_batch filing_dates fetchResult days = [] := by
    rcases hfail with h | h <;> subst h <;> unfold calc_returns_batch <;>
      by_cases hfd : filing_dates.isEmpty <;> simp [hfd]
  refine ⟨hempty, fun d _ => by rw [hempty]; rfl, ?_⟩
  unfold processAllTickers processTicker
  simp [hempty, dictGet]

/-- Witness for C7: a failed fetch for one ticker with one filing. -/
theorem claim_C7_fetch_failure_witness :
    calc_returns_batch [5] none 7 = [] ∧
    processAllTickers [([5], none)] 7 =
      ([5] : List Int).map (fun d => (d, none)) ++ processAllTickers [] 7 :=
  ⟨(claim_C7_fetch_failure [5] none 7 [] (Or.inl rfl)).1,
   (claim_C7_fetch_failure [5] none 7 [] (Or.inl rfl)).2.2⟩

/-- C9 counterexample: `calculate_stock_returns_batch` in
`scripts/collect-historical-data.py` pads the fetched range by only
`days + 5` calendar days — for a single filing on day 0 with the default
horizon 7 the range ends on day 12, short of the claimed
`horizonDays + 7 = 14` days past the latest filing date. -/
theorem claim_C9_counterexample :
    fetch_range_hist [0] 7 = some (0, 12) ∧ ¬ ((0 : Int) + 7 + 7 ≤ 12) := by
  constructor
  · rfl
  · decide

/-- C9 amended: `collect-full-dataset.py` pads the fetch range end exactly
`horizonDays + 7` calendar days past the latest filing date (so "at least
`+ 7`" holds there), but `collect-historical-data.py` pads only
`horizonDays + 5`, strictly less than the claimed bound. -/
theorem claim_C9_padding (filing_dates : List Int) (days mn mx : Int)
    (hmin : filing_dates.min? = some mn) (hmax : filing_dates.max? = some mx) :
    fetch_range_full filing_dates days = some (mn, mx + (days + 7)) ∧
    mx + days + 7 ≤ mx + (days + 7) ∧
    fetch_range_hist filing_dates days = some (mn, mx + (days + 5)) ∧
    mx + (days + 5) < mx + (days + 7) := by
  refine ⟨?_, by omega, ?_, by omega⟩ <;>
    simp [fetch_range_full, fetch_range_hist, hmin, hmax]

/-- Witness for C9 at the batch {day 3, day 10} with horizon 7. -/
theorem claim_C9_padding_witness :
    fetch_range_full [3, 10] 7 = some (3, 10 + (7 + 7)) ∧
    (10 : Int) + 7 + 7 ≤ 10 + (7 + 7) ∧
    fetch_range_hist [3, 10] 7 = some (3, 10 + (7 + 5)) ∧
    (10 : Int) + (7 + 5) < 10 + (7 + 7) :=
  claim_C9_padding [3, 10] 7 3 10 (by decide) (by decide)

/-- C10: the batch return calculation is per-ticker atomic — the
`collect-full-dataset.py` version returns the empty dict on any exception
and otherwise keys every filing date, so the result is never partially
populated; the `test-collection.py` version keys every filing date on
every path (its except branch stores None under each date). -/
theorem claim_C10_batch_atomicity (filing_dates : List Int)
    (fetchResult : Option PriceSeries) (days : Nat) :
    (fetchResult = none → calc_returns_batch filing_dates fetchResult days = []) ∧
    (calc_returns_batch filing_dates fetchResult days = [] ∨
      ∀ d ∈ filing_dates,
        ((calc_returns_batch filing_dates fetchResult days).lookup d).isSome) ∧
    (∀ d ∈ filing_dates,
      ((tc_calc_returns_batch filing_dates fetchResult).lookup d).isSome) := by
  refine ⟨fun h => ?_, ?_, fun d hd => ?_⟩
  · subst h
    unfold calc_returns_batch
    by_cases hfd : filing_dates.isEmpty <;> simp [hfd]
  · by_cases hfd : filing_dates.isEmpty
    · left
      unfold calc_returns_batch
      simp [hfd]
    · cases fetchResult with
      | none => left; unfold calc_returns_batch; simp [hfd]
      | some hist =>
        by_cases hh : hist.isEmpty
        · left
          unfold calc_returns_batch
          simp [hfd, hh]
        · right
          intro d hd
          unfold calc_returns_batch
          simp only [hfd, if_false, Bool.false_eq_true, hh]
          rw [lookup_map_pair (calc_return_one days hist) filing_dates d hd]
          rfl
  · have hfd : ¬ filing_dates.isEmpty := by
      cases filing_dates with
      | nil => cases hd
      | cons a t => simp
    unfold tc_calc_returns_batch
    cases fetchResult with
    | none =>
      simp only [hfd, if_false, Bool.false_eq_true]
      rw [lookup_map_pair (fun _ => (none : Option ℚ)) filing_dates d hd]
      rfl
    | some hist =>
      simp only [hfd, if_false, Bool.false_eq_true]
      rw [lookup_map_pair (tc_calc_return_one hist) filing_dates d hd]
      rfl

/-- Witness for C10: one ticker, one filing date, failed fetch. -/
theorem claim_C10_batch_atomicity_witness :
    calc_returns_batch [5] none 7 = [] ∧
    ((tc_calc_returns_batch [5] none).lookup 5).isSome :=
  ⟨(claim_C10_batch_atomicity [5] none 7).1 rfl,
   (claim_C10_batch_atomicity [5] none 7).2.2 5 (by decide)⟩

/-- C2 counterexample: on predictions [+1, −1, +1] against actuals
[0.0, −2.0, 3.0] the scripts' direction computations score 2 of 3 pairs
correct (66.7%), not the claimed 100%: `np.sign(0) = 0` matches neither
+1 nor −1, and `(p > 0) == (a > 0)` puts a zero actual in the non-positive
bucket. -/
theorem claim_C2_counterexample :
    ml_direction_accuracy [0, -2, 3] [1, -1, 1] ≠ 100 ∧
    ml_direction_accuracy [0, -2, 3] [1, -1, 1] = 200 / 3 ∧
    cb_accuracy [(1, some 0), (-1, some (-2)), (1, some 3)] = Except.ok (2, 3) := by
  refine ⟨?_, ?_, ?_⟩
  · norm_num [ml_direction_accuracy, npSign, List.zip, List.countP, List.countP.go]
  · norm_num [ml_direction_accuracy, npSign, List.zip, List.countP, List.countP.go]
  · norm_num [cb_accuracy, cb_correct_direction, List.mapM, List.mapM.loop,
      List.count, List.countP, List.countP.go, Bind.bind, Except.bind,
      Pure.pure, Except.pure]

/-- C2 amended: a value of exactly 0 is never placed in the positive sign
bucket — under `(p > 0) == (a > 0)` a zero actual is bucketed as
non-positive (a positive prediction scores incorrect against it, a
non-positive one correct), and under `np.sign` zero forms its own class
matching no positive value; hence the worked example scores 2/3 ≈ 66.7%. -/
theorem claim_C2_zero_tiebreak (p : ℚ) :
    (0 < p → cb_correct_direction p (some 0) = Except.ok false) ∧
    (p ≤ 0 → cb_correct_direction p (some 0) = Except.ok true) ∧
    npSign 0 = 0 ∧
    (0 < p → npSign p ≠ npSign 0) ∧
    ml_direction_accuracy [0, -2, 3] [1, -1, 1] = 200 / 3 := by
  refine ⟨fun hp => ?_, fun hp => ?_, by norm_num [npSign], fun hp => ?_, ?_⟩
  · simp [cb_correct_direction, hp]
  · simpa [cb_correct_direction] using hp
  · simp [npSign, hp]
  · norm_num [ml_direction_accuracy, npSign, List.zip, List.countP, List.countP.go]

/-- Witness for C2 amended at p = 1. -/
theorem claim_C2_zero_tiebreak_witness :
    cb_correct_direction 1 (some 0) = Except.ok false ∧
    npSign 1 ≠ npSign 0 :=
  ⟨(claim_C2_zero_tiebreak 1).1 (by norm_num),
   (claim_C2_zero_tiebreak 1).2.2.2.1 (by norm_num)⟩

/-- C3: evaluation at the failing batch — 10 pairs of which 3 have a null
actual.  `prepare_features` of `ml_analysis_30d.py` drops the null rows
(total 7, as the spec requires), but `comprehensive-backtest.py` performs
no null exclusion: its `correct_direction` raises `TypeError` on the first
null actual (`None > 0`), and its denominator is the full pair count, so
the batch never yields total = 7 there. -/
theorem claim_C3_null_exclusion_eval :
    tenPairs.length = 10 ∧
    tenPairs.countP (fun q => q.2.isNone) = 3 ∧
    (ml30_prepare tenPairs).length = 7 ∧
    cb_accuracy tenPairs = Except.error "TypeError" ∧
    cb_accuracy (tenPairs.filterMap
        (fun q => q.2.map (fun a => (q.1, some a)))) = Except.ok (6, 7) := by
  refine ⟨rfl, ?_, ?_, ?_, ?_⟩
  · norm_num [tenPairs, List.countP, List.countP.go]
  · norm_num [ml30_prepare, tenPairs, List.countP, List.countP.go,
      List.filterMap_cons]
  · norm_num [cb_accuracy, cb_correct_direction, tenPairs, List.mapM,
      List.mapM.loop, Bind.bind, Except.bind, Pure.pure, Except.pure]
  · norm_num [cb_accuracy, cb_correct_direction, tenPairs, List.mapM,
      List.mapM.loop, Bind.bind, Except.bind, Pure.pure, Except.pure,
      List.filterMap_cons, List.count, List.countP, List.countP.go]

/-- C5: with a nonzero prior, the surprise fields are set with magnitude
(current − prior)/|prior| × 100, and the category is beat iff the
magnitude exceeds +5, miss iff it is below −5, inline otherwise — the
thresholds are exclusive, so ±5.0 exactly classifies inline. -/
theorem claim_C5_surprise_classification (current prior : ℚ) (h : prior ≠ 0) :
    surpriseOf current prior =
      some (classifySurprise (surpriseMagnitude current prior),
            surpriseMagnitude current prior) ∧
    surpriseMagnitude current prior = (current - prior) / |prior| * 100 ∧
    (∀ g : ℚ, (classifySurprise g = "beat" ↔ 5 < g) ∧
      (classifySurprise g = "miss" ↔ g < -5) ∧
      (classifySurprise g = "inline" ↔ -5 ≤ g ∧ g ≤ 5)) ∧
    classifySurprise 5 = "inline" ∧ classifySurprise (-5) = "inline" := by
  refine ⟨by simp [surpriseOf, h], rfl, fun g => ?_,
    by norm_num [classifySurprise], by norm_num [classifySurprise]⟩
  by_cases h1 : 5 < g
  · have h2 : ¬ g < -5 := by linarith
    have h3 : ¬ g ≤ 5 := by linarith
    simp [classifySurprise, h1, h2, h3]
  · by_cases h2 : g < -5
    · have h4 : ¬ -5 ≤ g := by linarith
      simp [classifySurprise, h1, h2, h4]
    · have h3 : -5 ≤ g := by linarith
      have h4 : g ≤ 5 := by linarith
      simp [classifySurprise, h1, h2, h3, h4]

/-- Witness for C5 at current = 21, prior = 20 (magnitude exactly +5). -/
theorem claim_C5_surprise_classification_witness :
    surpriseOf 21 20 =
      some (classifySurprise (surpriseMagnitude 21 20), surpriseMagnitude 21 20) ∧
    classifySurprise 5 = "inline" ∧ classifySurprise (-5) = "inline" :=
  ⟨(claim_C5_surprise_classification 21 20 (by norm_num)).1,
   (claim_C5_surprise_classification 21 20 (by norm_num)).2.2.2⟩

/-- The descending 10-K scan finds exactly the most recent annual filing
strictly before the given index. -/
theorem findPriorAnnual_eq_some_iff (fs : List Filing) (g : Filing) :
    ∀ i : Nat, findPriorAnnual fs i = some g ↔ IsMostRecentPriorAnnual fs i g := by
  intro i
  induction i with
  | zero =>
    simp only [findPriorAnnual, IsMostRecentPriorAnnual]
    constructor
    · intro h
      cases h
    · rintro ⟨j, hj, _⟩
      omega
  | succ j ih =>
    constructor
    · intro h
      cases hj : fs[j]? with
      | some gj =>
        by_cases hk : gj.filingType = "10-K"
        · simp only [findPriorAnnual, hj, if_pos hk] at h
          cases h
          exact ⟨j, Nat.lt_succ_self j, hj, hk, fun k hk1 hk2 _ _ => by omega⟩
        · simp only [findPriorAnnual, hj, if_neg hk] at h
          obtain ⟨j', h1, h2, h3, h4⟩ := ih.mp h
          refine ⟨j', by omega, h2, h3, fun k hka hkb hfk hgetk => ?_⟩
          by_cases hkj : k = j
          · subst hkj
            rw [hj] at hgetk
            cases hgetk
            exact hk
          · exact h4 k hka (by omega) hfk hgetk
      | none =>
        simp only [findPriorAnnual, hj] at h
        obtain ⟨j', h1, h2, h3, h4⟩ := ih.mp h
        refine ⟨j', by omega, h2, h3, fun k hka hkb hfk hgetk => ?_⟩
        by_cases hkj : k = j
        · subst hkj
          rw [hj] at hgetk
          cases hgetk
        · exact h4 k hka (by omega) hfk hgetk
    · rintro ⟨j', h1, h2, h3, h4⟩
      by_cases hej : j' = j
      · subst hej
        simp only [findPriorAnnual, h2, if_pos h3]
      · have hlt : j' < j := by omega
        cases hj : fs[j]? with
        | some gj =>
          have hgj : gj.filingType ≠ "10-K" :=
            h4 j hlt (Nat.lt_succ_self j) gj hj
          simp only [findPriorAnnual, hj, if_neg hgj]
          exact ih.mpr ⟨j', hlt, h2, h3, fun k hka hkb => h4 k hka (by omega)⟩
        | none =>
          simp only [findPriorAnnual, hj]
          exact ih.mpr ⟨j', hlt, h2, h3, fun k hka hkb => h4 k hka (by omega)⟩

/-- C6: in a ticker's date-sorted filing list, a 10-Q's comparable prior
is the filing exactly 4 positions earlier (none when fewer than 4 exist),
a 10-K's comparable prior is precisely the most recent earlier 10-K, and
when no prior exists the surprise fields stay absent — never an "inline"
default. -/
theorem claim_C6_prior_lookup (fs : List Filing) (i : Nat) (f : Filing)
    (hf : fs[i]? = some f)
    (hsorted : fs.Pairwise (fun a b => a.filingDate ≤ b.filingDate)) :
    (f.filingType = "10-Q" →
      priorFiling fs i = if 4 ≤ i then fs[i - 4]? else none) ∧
    (f.filingType = "10-K" →
      ∀ g, (priorFiling fs i = some g ↔ IsMostRecentPriorAnnual fs i g)) ∧
    (priorFiling fs i = none → epsSurpriseAt fs i = none) := by
  refine ⟨fun hq => ?_, fun hk g => ?_, fun hnone => ?_⟩
  · simp [priorFiling, hf, hq]
  · have hnq : f.filingType ≠ "10-Q" := by rw [hk]; decide
    simp only [priorFiling, hf, if_neg hnq, if_pos hk]
    exact findPriorAnnual_eq_some_iff fs g i
  · simp only [epsSurpriseAt, hf, hnone]
    by_cases ht : truthy f.eps && truthy f.revenue <;> simp [ht]

/-- Witness for C6 on a concrete 5-filing list (a 10-K then four 10-Qs). -/
theorem claim_C6_prior_lookup_witness :
    priorFiling sampleFilings 4 =
      (if 4 ≤ 4 then sampleFilings[4 - 4]? else none) ∧
    (priorFiling sampleFilings 4 = none → epsSurpriseAt sampleFilings 4 = none) :=
  ⟨(claim_C6_prior_lookup sampleFilings 4 ⟨"AAPL", "10-Q", 4, some 5, some 50⟩
      rfl (by decide)).1 rfl,
   (claim_C6_prior_lookup sampleFilings 4 ⟨"AAPL", "10-Q", 4, some 5, some 50⟩
      rfl (by decide)).2.2⟩

/-- Rows whose key was already seen are all removed by the dedup scan. -/
theorem dropDup_filter_of_seen (k : String × Int) (l : List FilingRow) :
    ∀ seen, k ∈ seen →
      (dropDuplicatesKeepFirst seen l).filter (fun r => decide (rowKey r = k)) = [] := by
  induction l with
  | nil => intro seen _; rfl
  | cons r rs ih =>
    intro seen hk
    by_cases hr : rowKey r ∈ seen
    · simpa [dropDuplicatesKeepFirst, hr] using ih seen hk
    · have hrk : ¬ rowKey r = k := fun he => hr (he ▸ hk)
      simp only [dropDuplicatesKeepFirst, if_neg hr, List.filter_cons,
        decide_eq_true_eq, hrk, if_false]
      exact ih (rowKey r :: seen) (List.mem_cons_of_mem _ hk)

/-- For an unseen key, the dedup scan keeps exactly the first row bearing
it. -/
theorem dropDup_filter_of_not_seen (k : String × Int) (l : List FilingRow) :
    ∀ seen, k ∉ seen →
      (dropDuplicatesKeepFirst seen l).filter (fun r => decide (rowKey r = k)) =
        (l.filter (fun r => decide (rowKey r = k))).take 1 := by
  induction l with
  | nil => intro seen _; rfl
  | cons r rs ih =>
    intro seen hk
    by_cases hr : rowKey r ∈ seen
    · have hrk : ¬ rowKey r = k := fun he => hk (he ▸ hr)
      simp only [dropDuplicatesKeepFirst, if_pos hr, List.filter_cons,
        decide_eq_true_eq, hrk, if_false]
      exact ih seen hk
    · by_cases hek : rowKey r = k
      · subst hek
        have hseen := dropDup_filter_of_seen (rowKey r) rs (rowKey r :: seen)
          (List.mem_cons_self _ _)
        simp [dropDuplicatesKeepFirst, hr, List.filter_cons, hseen]
      · simp only [dropDuplicatesKeepFirst, if_neg hr, List.filter_cons,
          decide_eq_true_eq, hek, if_false]
        exact ih (rowKey r :: seen) (by
          simp only [List.mem_cons, not_or]
          exact ⟨fun he => hek he.symm, hk⟩)

/-- C8: in any input list where `r1` is the first row bearing its
(ticker, filingDate) key and `r2` is a later row with the same key but a
different accession identifier, the dedup pass keeps exactly `r1` among
rows with that key: `r1` survives and `r2` is dropped from everything
downstream of the dedup. -/
theorem claim_C8_dedup_keep_first (l1 l2 : List FilingRow) (r1 r2 : FilingRow)
    (hfirst : ∀ r ∈ l1, rowKey r ≠ rowKey r1)
    (hkey : rowKey r2 = rowKey r1)
    (hne : r2.accessionIdentifier ≠ r1.accessionIdentifier) :
    (dedupFilings (l1 ++ r1 :: l2)).filter
        (fun r => decide (rowKey r = rowKey r1)) = [r1] ∧
    r1 ∈ dedupFilings (l1 ++ r1 :: l2) ∧
    r2 ∉ dedupFilings (l1 ++ r1 :: l2) := by
  have hl1 : l1.filter (fun r => decide (rowKey r = rowKey r1)) = [] := by
    rw [List.filter_eq_nil_iff]
    intro r hr
    simpa using hfirst r hr
  have hfil : (dedupFilings (l1 ++ r1 :: l2)).filter
      (fun r => decide (rowKey r = rowKey r1)) = [r1] := by
    rw [dedupFilings,
      dropDup_filter_of_not_seen (rowKey r1) (l1 ++ r1 :: l2) [] (by simp),
      List.filter_append, hl1]
    simp [List.filter_cons]
  refine ⟨hfil, ?_, ?_⟩
  · have h1 : r1 ∈ (dedupFilings (l1 ++ r1 :: l2)).filter
        (fun r => decide (rowKey r = rowKey r1)) := by
      rw [hfil]
      exact List.mem_singleton_self r1
    exact List.mem_of_mem_filter h1
  · intro hmem
    have h2 : r2 ∈ (dedupFilings (l1 ++ r1 :: l2)).filter
        (fun r => decide (rowKey r = rowKey r1)) :=
      List.mem_filter.mpr ⟨hmem, by simp [hkey]⟩
    rw [hfil] at h2
    have : r2 = r1 := by simpa using h2
    exact hne (by rw [this])

/-- Witness for C8: two rows sharing (AAPL, day 10) with different
accession identifiers. -/
theorem claim_C8_dedup_keep_first_witness :
    (dedupFilings ([] ++ ⟨"AAPL", 10, "acc-1"⟩ :: [⟨"AAPL", 10, "acc-2"⟩])).filter
        (fun r => decide (rowKey r = rowKey ⟨"AAPL", 10, "acc-1"⟩)) =
      [⟨"AAPL", 10, "acc-1"⟩] ∧
    (⟨"AAPL", 10, "acc-1"⟩ : FilingRow) ∈
      dedupFilings ([] ++ ⟨"AAPL", 10, "acc-1"⟩ :: [⟨"AAPL", 10, "acc-2"⟩]) ∧
    (⟨"AAPL", 10, "acc-2"⟩ : FilingRow) ∉
      dedupFilings ([] ++ ⟨"AAPL", 10, "acc-1"⟩ :: [⟨"AAPL", 10, "acc-2"⟩]) :=
  claim_C8_dedup_keep_first [] [⟨"AAPL", 10, "acc-2"⟩]
    ⟨"AAPL", 10, "acc-1"⟩ ⟨"AAPL", 10, "acc-2"⟩
    (by intro r hr; cases hr) rfl (by decide)

end SecFilingAnalyzer
